import Mathlib

/-!
Verification of the FlaskDiarization task-orchestration pipeline.

Shallow embedding of the repository's core modules:

* `src/db_service/models.py` — `TaskStatus` and its string round-trip.
* `src/db_service/db.py` — `DatabaseService.update_task_status` (unconditional
  SQL `UPDATE ... WHERE task_id = ?`, returning `rowcount > 0`).
* `src/task_manager/manager.py` — `TaskManager.update_task_status`.
* `src/aggregator/aggregator.py` — `TranscriberAggregator`: the workflow
  (`process_task` / `_process_task_workflow` and its stage helpers), the
  transcript chunker `_split_transcript`, the report compiler
  `_compile_final_report` and `_format_time`.
* `src/transcriber_service/transcriber_service.py` — `TranscriberService.diarize`.

Python text is modelled as `List Char` (`Str`); Python `str.strip()` as
whitespace trimming at both ends; Python exceptions as an explicit `Res`
outcome type.  The gateways and the task store are injected dependencies of
`TranscriberAggregator` (constructor parameters in the source), so their
behaviour is modelled by an `Env` record of per-call responses, each of which
may be an exception; durable effects (the stored status and the persisted
artifacts) are threaded through a `DBState`.
-/

/-! ## Python text primitives -/

/-- Python text, modelled as a list of characters. -/
abbrev Str := List Char

/-- The characters Python's `str.strip()` removes (ASCII whitespace). -/
def pyIsSpace (c : Char) : Bool :=
  c = ' ' || c = '\t' || c = '\n' || c = '\x0d' || c = '\x0b' || c = '\x0c'

/-- Python `str.strip()`: drop whitespace from both ends. -/
def pyStrip (s : Str) : Str :=
  ((s.dropWhile pyIsSpace).reverse.dropWhile pyIsSpace).reverse

/-- Erase every whitespace character (used to compare text up to the
whitespace that joins sentences). -/
def removeWS (s : Str) : Str := s.filter (fun c => !pyIsSpace c)

@[simp] theorem removeWS_nil : removeWS [] = [] := rfl

theorem removeWS_append (a b : Str) : removeWS (a ++ b) = removeWS a ++ removeWS b := by
  simp [removeWS, List.filter_append]

theorem removeWS_reverse (s : Str) : removeWS s.reverse = (removeWS s).reverse := by
  simp [removeWS, List.filter_reverse]

theorem removeWS_dropWhile (s : Str) :
    removeWS (s.dropWhile pyIsSpace) = removeWS s := by
  induction s with
  | nil => rfl
  | cons c cs ih =>
    by_cases h : pyIsSpace c
    · simp [removeWS, List.dropWhile_cons, h] at ih ⊢
      simpa [removeWS] using ih
    · simp [List.dropWhile_cons, h]

theorem removeWS_pyStrip (s : Str) : removeWS (pyStrip s) = removeWS s := by
  unfold pyStrip
  rw [removeWS_reverse, removeWS_dropWhile, removeWS_reverse,
    List.reverse_reverse, removeWS_dropWhile]

theorem dropWhile_length_le (p : Char → Bool) (l : Str) :
    (l.dropWhile p).length ≤ l.length := by
  induction l with
  | nil => simp
  | cons c cs ih =>
    cases h : p c with
    | false => simp [List.dropWhile_cons, h]
    | true =>
      simp only [List.dropWhile_cons, h, if_true]
      exact Nat.le_succ_of_le ih

theorem pyStrip_length_le (s : Str) : (pyStrip s).length ≤ s.length := by
  unfold pyStrip
  calc ((s.dropWhile pyIsSpace).reverse.dropWhile pyIsSpace).reverse.length
      = ((s.dropWhile pyIsSpace).reverse.dropWhile pyIsSpace).length := by
        simp
    _ ≤ (s.dropWhile pyIsSpace).reverse.length :=
        dropWhile_length_le pyIsSpace (s.dropWhile pyIsSpace).reverse
    _ = (s.dropWhile pyIsSpace).length := by simp
    _ ≤ s.length := dropWhile_length_le pyIsSpace s

/-! ## Python `transcript.split('. ')` specialised to the two-character
separator used by `_split_transcript`. -/

/-- Python `text.split(". ")`: greedy leftmost split on the literal
two-character separator, keeping empty pieces. -/
def splitDS : Str → List Str
  | [] => [[]]
  | [c] => [[c]]
  | c :: d :: rest =>
    if c = '.' ∧ d = ' ' then
      [] :: splitDS rest
    else
      match splitDS (d :: rest) with
      | [] => [[c]]
      | s :: ss => (c :: s) :: ss

/-- Rejoin the pieces with the `". "` separator (inverse of `splitDS`). -/
def joinDS : List Str → Str
  | [] => []
  | [s] => s
  | s :: t :: rest => s ++ '.' :: ' ' :: joinDS (t :: rest)

theorem splitDS_ne_nil (l : Str) : splitDS l ≠ [] := by
  induction l using splitDS.induct with
  | case1 => simp [splitDS]
  | case2 => simp [splitDS]
  | case3 c d rest h ih => simp [splitDS, h]
  | case4 c d rest h heq => simp [splitDS, h, heq]
  | case5 c d rest h s ss heq ih => simp [splitDS, h, heq]

theorem joinDS_splitDS (l : Str) : joinDS (splitDS l) = l := by
  induction l using splitDS.induct with
  | case1 => rfl
  | case2 => rfl
  | case3 c d rest h ih =>
    have hs : splitDS (c :: d :: rest) = [] :: splitDS rest := by
      simp only [splitDS]; rw [if_pos h]
    obtain ⟨hc, hd⟩ := h
    subst hc; subst hd
    rw [hs]
    cases hsp : splitDS rest with
    | nil => exact absurd hsp (splitDS_ne_nil rest)
    | cons s ss =>
      rw [hsp] at ih
      simp [joinDS, ih]
  | case4 c d rest h heq =>
    exact absurd heq (splitDS_ne_nil (d :: rest))
  | case5 c d rest h s ss heq ih =>
    have hs : splitDS (c :: d :: rest) = (c :: s) :: ss := by
      simp only [splitDS]; rw [if_neg h, heq]
    rw [hs]
    rw [heq] at ih
    cases ss with
    | nil =>
      simp only [joinDS] at ih ⊢
      rw [ih]
    | cons t ts =>
      simp only [joinDS] at ih ⊢
      rw [List.cons_append, ih]

/-! ## `TranscriberAggregator._split_transcript` (the Chunker) -/

namespace TranscriberAggregator

/-- The accumulation loop of `_split_transcript`: fold the sentence list,
growing `cur` while the guard `len(current_chunk) + len(sentence) + 2 <=
max_chunk_size` holds, otherwise closing `cur` (stripped) as a chunk; finally
flush a non-empty `cur` (Python `if current_chunk:`). -/
def chunkLoop (N : Nat) : List Str → Str → List Str → List Str
  | [], cur, chunks => if cur = [] then chunks else chunks ++ [pyStrip cur]
  | s :: rest, cur, chunks =>
    if cur.length + s.length + 2 ≤ N then
      chunkLoop N rest (cur ++ s ++ ['.', ' ']) chunks
    else
      chunkLoop N rest (s ++ ['.', ' ']) (chunks ++ [pyStrip cur])

/-- `TranscriberAggregator._split_transcript(transcript, max_chunk_size)`:
return the whole text when it fits, otherwise split on `". "` and greedily
regroup the sentences. -/
def split_transcript (transcript : Str) (max_chunk_size : Nat) : List Str :=
  if transcript.length ≤ max_chunk_size then [transcript]
  else chunkLoop max_chunk_size (splitDS transcript) [] []

end TranscriberAggregator

/-! ## Chunker lemmas -/

/-- Join pieces with a bare `"."` separator: the sentence content of a text
once the sentence-joining whitespace is gone. -/
def joinDot : List Str → Str
  | [] => []
  | [s] => s
  | s :: t :: rest => s ++ '.' :: joinDot (t :: rest)

theorem removeWS_dot_space (x : Str) :
    removeWS ('.' :: ' ' :: x) = '.' :: removeWS x := by
  have h1 : pyIsSpace '.' = false := by decide
  have h2 : pyIsSpace ' ' = true := by decide
  simp [removeWS, List.filter_cons, h1, h2]

theorem removeWS_joinDS (ss : List Str) :
    removeWS (joinDS ss) = joinDot (ss.map removeWS) := by
  induction ss with
  | nil => rfl
  | cons s rest ih =>
    cases rest with
    | nil => rfl
    | cons t ts =>
      have h : joinDS (s :: t :: ts) = s ++ '.' :: ' ' :: joinDS (t :: ts) := rfl
      rw [h, removeWS_append, removeWS_dot_space, ih]
      rfl

theorem join_map_addDot (s0 : Str) (ss : List Str) :
    (((s0 :: ss).map fun s => removeWS s ++ ['.'])).flatten =
      joinDot ((s0 :: ss).map removeWS) ++ ['.'] := by
  induction ss generalizing s0 with
  | nil => simp [joinDot]
  | cons t ts ih =>
    simp only [List.map_cons, List.flatten_cons] at ih ⊢
    rw [ih t]
    simp [joinDot]

theorem chunkLoop_removeWS (N : Nat) (ss : List Str) :
    ∀ cur chunks,
      removeWS (TranscriberAggregator.chunkLoop N ss cur chunks).flatten =
        removeWS chunks.flatten ++ removeWS cur ++
          ((ss.map fun s => removeWS s ++ ['.'])).flatten := by
  have hds : removeWS ['.', ' '] = ['.'] := by decide
  induction ss with
  | nil =>
    intro cur chunks
    by_cases h : cur = [] <;>
      simp [TranscriberAggregator.chunkLoop, h, removeWS_append, removeWS_pyStrip]
  | cons s rest ih =>
    intro cur chunks
    by_cases h : cur.length + s.length + 2 ≤ N
    · simp only [TranscriberAggregator.chunkLoop, if_pos h]
      rw [ih]
      simp [removeWS_append, hds, List.append_assoc]
    · simp only [TranscriberAggregator.chunkLoop, if_neg h]
      rw [ih]
      simp [removeWS_append, removeWS_pyStrip, hds, List.append_assoc]

theorem dropWhile_append_dot (s : Str) :
    (s ++ ['.', ' ']).dropWhile pyIsSpace = s.dropWhile pyIsSpace ++ ['.', ' '] := by
  induction s with
  | nil => decide
  | cons c cs ih => cases h : pyIsSpace c <;> simp [List.dropWhile_cons, h, ih]

theorem pyStrip_sentence (s : Str) :
    pyStrip (s ++ ['.', ' ']) = s.dropWhile pyIsSpace ++ ['.'] := by
  have h1 : pyIsSpace ' ' = true := by decide
  have h2 : pyIsSpace '.' = false := by decide
  unfold pyStrip
  rw [dropWhile_append_dot]
  simp [List.reverse_append, List.dropWhile_cons, h1, h2]

theorem pyStrip_sentence_length (s : Str) :
    (pyStrip (s ++ ['.', ' '])).length ≤ s.length + 1 := by
  rw [pyStrip_sentence]
  simp only [List.length_append, List.length_singleton]
  exact Nat.add_le_add_right (dropWhile_length_le pyIsSpace s) 1

theorem chunkLoop_size (N : Nat) (P : Str → Prop) (ss : List Str) :
    ∀ cur chunks,
      (∀ s ∈ ss, P s) →
      (∀ c ∈ chunks,
        c.length ≤ N ∨ ∃ s, P s ∧ N < s.length + 2 ∧ c = pyStrip (s ++ ['.', ' '])) →
      (cur.length ≤ N ∨ ∃ s, P s ∧ N < s.length + 2 ∧ cur = s ++ ['.', ' ']) →
      ∀ c ∈ TranscriberAggregator.chunkLoop N ss cur chunks,
        c.length ≤ N ∨ ∃ s, P s ∧ N < s.length + 2 ∧ c = pyStrip (s ++ ['.', ' ']) := by
  induction ss with
  | nil =>
    intro cur chunks _ hchunks hcur c hc
    by_cases h : cur = []
    · simp only [TranscriberAggregator.chunkLoop, if_pos h] at hc
      exact hchunks c hc
    · simp only [TranscriberAggregator.chunkLoop, if_neg h, List.mem_append,
        List.mem_singleton] at hc
      rcases hc with hc | hc
      · exact hchunks c hc
      · subst hc
        rcases hcur with hlen | ⟨s, hPs, hbig, hcur⟩
        · exact Or.inl (le_trans (pyStrip_length_le cur) hlen)
        · exact Or.inr ⟨s, hPs, hbig, by rw [hcur]⟩
  | cons s rest ih =>
    intro cur chunks hss hchunks hcur c hc
    have hPs : P s := hss s (by simp)
    have hrest : ∀ t ∈ rest, P t := fun t ht => hss t (by simp [ht])
    by_cases h : cur.length + s.length + 2 ≤ N
    · simp only [TranscriberAggregator.chunkLoop, if_pos h] at hc
      refine ih _ _ hrest hchunks (Or.inl ?_) c hc
      have : (cur ++ s ++ ['.', ' ']).length = cur.length + s.length + 2 := by
        simp; omega
      omega
    · simp only [TranscriberAggregator.chunkLoop, if_neg h] at hc
      refine ih _ _ hrest ?_ ?_ c hc
      · intro d hd
        rcases List.mem_append.mp hd with hd | hd
        · exact hchunks d hd
        · rw [List.mem_singleton] at hd
          subst hd
          rcases hcur with hlen | ⟨u, hPu, hbig, hcur⟩
          · exact Or.inl (le_trans (pyStrip_length_le cur) hlen)
          · exact Or.inr ⟨u, hPu, hbig, by rw [hcur]⟩
      · by_cases hsN : s.length + 2 ≤ N
        · exact Or.inl (by simp; omega)
        · exact Or.inr ⟨s, hPs, by omega, rfl⟩

/-! ## Claim theorems about the Chunker (C6, C7, C8) -/

/-- Claim C6, counterexample: with `N = 3` and text `"abc. x"` (length 6 > 3),
no sentence exceeds `N = 3` characters, yet the returned chunk `"abc."`
has length 4 > 3 — the oversized-chunk exception of the claim does not cover
it, because the chunker re-appends a period to a sentence of length exactly
`N`. -/
theorem C6_size_bound_cex :
    (∀ s ∈ splitDS ("abc. x".data), s.length ≤ 3) ∧
    ∃ c ∈ TranscriberAggregator.split_transcript ("abc. x".data) 3,
      3 < c.length := by
  decide

/-- Claim C6 (amended): every chunk returned by
`_split_transcript(text, N)` has length at most `N`, except chunks that
consist of a single sentence `s` with `len(s) + 2 > N`: such a chunk is
`strip(s + ". ")` — the sentence with its period restored — and has length at
most `len(s) + 1` (so it can exceed `N` by one character even when no
sentence itself exceeds `N`). -/
theorem C6_size_bound (T : Str) (N : Nat) :
    ∀ c ∈ TranscriberAggregator.split_transcript T N,
      c.length ≤ N ∨ ∃ s ∈ splitDS T, N < s.length + 2 ∧
        c = pyStrip (s ++ ['.', ' ']) ∧ c.length ≤ s.length + 1 := by
  intro c hc
  by_cases h : T.length ≤ N
  · simp only [TranscriberAggregator.split_transcript, if_pos h,
      List.mem_singleton] at hc
    subst hc
    exact Or.inl h
  · simp only [TranscriberAggregator.split_transcript, if_neg h] at hc
    have := chunkLoop_size N (· ∈ splitDS T) (splitDS T) [] []
      (fun _ hs => hs) (by simp) (Or.inl (by simp)) c hc
    rcases this with hlen | ⟨s, hs, hbig, hstrip⟩
    · exact Or.inl hlen
    · refine Or.inr ⟨s, hs, hbig, hstrip, ?_⟩
      rw [hstrip]
      exact pyStrip_sentence_length s

/-- Claim C6, witness for the amended theorem at a concrete input. -/
theorem C6_size_bound_witness :
    ("abc.".data ∈ TranscriberAggregator.split_transcript ("abc. x".data) 3) ∧
    ("abc.".data.length ≤ 3 ∨ ∃ s ∈ splitDS ("abc. x".data),
      3 < s.length + 2 ∧ "abc.".data = pyStrip (s ++ ['.', ' ']) ∧
      "abc.".data.length ≤ s.length + 1) :=
  ⟨by decide, C6_size_bound ("abc. x".data) 3 ("abc.".data) (by decide)⟩

/-- Claim C7, counterexample: for text `"aa. bb"` and `N = 4`, the chunks are
`["aa.", "bb."]`; even after erasing all (sentence-joining) whitespace the
concatenation is `"aa.bb."` while the original is `"aa.bb"` — the final
sentence gains a period, so the sentence content is not reconstructed
exactly. -/
theorem C7_reconstruction_cex :
    removeWS (TranscriberAggregator.split_transcript ("aa. bb".data) 4).flatten ≠
      removeWS ("aa. bb".data) := by
  decide

/-- Claim C7 (amended): concatenating all chunks and erasing the
sentence-joining whitespace yields the original text's sentence content in
order, except that when chunking actually occurred (`len(text) > N`) exactly
one extra period is appended: the final sentence always gains a trailing
`"."`. -/
theorem C7_reconstruction (T : Str) (N : Nat) :
    removeWS (TranscriberAggregator.split_transcript T N).flatten =
      removeWS T ++ (if T.length ≤ N then [] else ['.']) := by
  by_cases h : T.length ≤ N
  · simp [TranscriberAggregator.split_transcript, h]
  · simp only [TranscriberAggregator.split_transcript, if_neg h]
    rw [chunkLoop_removeWS]
    cases hsp : splitDS T with
    | nil => exact absurd hsp (splitDS_ne_nil T)
    | cons s0 ss =>
      rw [join_map_addDot]
      have hT : removeWS T = joinDot ((s0 :: ss).map removeWS) := by
        conv_lhs => rw [← joinDS_splitDS T]
        rw [hsp, removeWS_joinDS]
      rw [hT]
      simp

/-- Claim C8: `_split_transcript` is the identity (as a one-element list) on
input that already fits: `split(text, N) = [text]` whenever
`len(text) <= N`. -/
theorem C8_short_input (T : Str) (N : Nat) (h : T.length ≤ N) :
    TranscriberAggregator.split_transcript T N = [T] := by
  simp [TranscriberAggregator.split_transcript, h]

/-- Claim C8, witness at a concrete input. -/
theorem C8_short_input_witness :
    TranscriberAggregator.split_transcript ("hi".data) 5 = ["hi".data] :=
  C8_short_input ("hi".data) 5 (by decide)

/-! ## `TaskStatus` (src/db_service/models.py) -/

/-- The task status enumeration. -/
inductive TaskStatus
  | pending
  | transcribing
  | transcribed
  | summarizing
  | summarized
  | finalizing
  | completed
  | failed
  deriving DecidableEq

/-- `TaskStatus.<MEMBER>.value`: the persisted string form of each status. -/
def TaskStatus.value : TaskStatus → String
  | .pending => "pending"
  | .transcribing => "transcribing"
  | .transcribed => "transcribed"
  | .summarizing => "summarizing"
  | .summarized => "summarized"
  | .finalizing => "finalizing"
  | .completed => "completed"
  | .failed => "failed"

/-- The members of the enum in declaration order (`for status in cls`). -/
def TaskStatus.members : List TaskStatus :=
  [.pending, .transcribing, .transcribed, .summarizing, .summarized,
   .finalizing, .completed, .failed]

/-- `TaskStatus.from_string(status_str)`: the first member whose `value`
matches; `none` models the raised `ValueError("Unknown task status: ...")`. -/
def TaskStatus.from_string (status_str : String) : Option TaskStatus :=
  TaskStatus.members.find? (fun status => status.value = status_str)

/-- `TaskStatus.is_final(status)`: membership of the status string in
`[COMPLETED.value, FAILED.value]`. -/
def TaskStatus.is_final (status : String) : Bool :=
  status ∈ [TaskStatus.completed.value, TaskStatus.failed.value]

/-- Claim C9: parsing the persisted string form of any status yields the
status back, and any string that is the persisted form of no status parses to
an error (`ValueError`, modelled as `none`) rather than silently coercing. -/
theorem C9_status_roundtrip :
    (∀ s : TaskStatus, TaskStatus.from_string s.value = some s) ∧
    (∀ str : String, (∀ s : TaskStatus, s.value ≠ str) →
      TaskStatus.from_string str = none) := by
  constructor
  · intro s; cases s <;> rfl
  · intro str h
    apply List.find?_eq_none.mpr
    intro s _
    simp [h s]

/-- Claim C9, witness: a string that names no status parses to an error. -/
theorem C9_status_roundtrip_witness :
    TaskStatus.from_string "bogus" = none :=
  C9_status_roundtrip.2 "bogus" (by intro s; cases s <;> decide)

/-! ## Status updates (src/db_service/db.py and src/task_manager/manager.py) -/

/-- The stored `tasks` row of one task id: `none` when no row exists,
otherwise the stored status string (`updated_at` is not modelled). -/
abbrev StoredTask := Option String

namespace DatabaseService

/-- `DatabaseService.update_task_status`: the unconditional SQL
`UPDATE tasks SET status = ?, updated_at = ? WHERE task_id = ?`, returning
`cursor.rowcount > 0`. -/
def update_task_status (stored : StoredTask) (status : String) : StoredTask × Bool :=
  match stored with
  | some _ => (some status, true)
  | none => (none, false)

end DatabaseService

namespace TaskManager

/-- `TaskManager.update_task_status`: convert the `TaskStatus` to its string
value and delegate to `DatabaseService.update_task_status`; no transition
check of any kind is performed. -/
def update_task_status (stored : StoredTask) (status : TaskStatus) : StoredTask × Bool :=
  DatabaseService.update_task_status stored status.value

end TaskManager

/-- Claim C2, counterexample: a transition out of the terminal state
`COMPLETED` back to `PENDING` is accepted by the task manager and store: the
stored status changes and success is reported — it is not rejected. -/
theorem C2_transitions_cex :
    TaskStatus.is_final TaskStatus.completed.value = true ∧
    TaskManager.update_task_status (some TaskStatus.completed.value) TaskStatus.pending =
      (some TaskStatus.pending.value, true) ∧
    TaskStatus.pending.value ≠ TaskStatus.completed.value := by
  decide

/-- Claim C2 (amended): the task manager and store perform no transition
validation at all — for an existing task row, any requested status (including
transitions out of the terminal states, stage skips and retreats) is written
unconditionally and reported as success; only an unknown task id is rejected
(`rowcount = 0`, status unchanged, `false` returned).  The §4.1 order is
respected only because the Executor happens to request statuses in order. -/
theorem C2_no_validation :
    (∀ (cur : String) (status : TaskStatus),
      TaskManager.update_task_status (some cur) status = (some status.value, true)) ∧
    (∀ status : TaskStatus,
      TaskManager.update_task_status none status = (none, false)) :=
  ⟨fun _ _ => rfl, fun _ => rfl⟩

/-! ## Report compiler (src/aggregator/aggregator.py) -/

/-- Python `int(x)` applied to a rational: truncation toward zero. -/
def pyInt (q : ℚ) : Int := if 0 ≤ q then ⌊q⌋ else ⌈q⌉

/-- Decimal rendering of an integer (Python `d` conversion). -/
def intStr (i : Int) : Str := (toString i).data

/-- Python `f"{i:02d}"`: left-pad the decimal form with `'0'` to width 2. -/
def pad2 (s : Str) : Str := List.replicate (2 - s.length) '0' ++ s

/-- One segment dict of `result['segments']`: every field is read through
`dict.get` in the source, so each key may be absent.  The `'end'` key is
called `stop` here because `end` is reserved in Lean. -/
structure Segment where
  start : Option ℚ
  stop : Option ℚ
  text : Option Str
  speaker : Option Str
  deriving DecidableEq

/-- A transcription-details (or diarization) dict, reduced to its optional
`'segments'` key. -/
structure TrDetails where
  segments : Option (List Segment)
  deriving DecidableEq

/-- One row returned by `get_summary_chunks`, reduced to its `'summary'`
field (`chunk['summary']`). -/
structure SummaryRow where
  summary : Str
  deriving DecidableEq

namespace TranscriberAggregator

/-- `TranscriberAggregator._format_time(seconds)`:
`minutes = int(seconds) // 60`, `seconds = int(seconds) % 60`, rendered as
`f"{minutes:02d}:{seconds:02d}"` (Python `//` is floor division and `%` the
nonnegative remainder: `Int.ediv` / `Int.emod` for the positive divisor 60). -/
def format_time (seconds : ℚ) : Str :=
  pad2 (intStr ((pyInt seconds).ediv 60)) ++ ':' ::
    pad2 (intStr ((pyInt seconds).emod 60))

/-- One line of the transcription section of `_compile_final_report`:
`f"[{start_time} - {end_time}] **{speaker}**: {text}\n\n"`, where the fields
are read with `segment.get('start', 0)`, `segment.get('end', 0)`,
`segment.get('text', '').strip()` and `segment.get('speaker', 'Говорящий')`. -/
def segment_line (seg : Segment) : Str :=
  "[".data ++ format_time (seg.start.getD 0) ++ " - ".data ++
    format_time (seg.stop.getD 0) ++ "] **".data ++
    (seg.speaker.getD "Говорящий".data) ++ "**: ".data ++
    pyStrip (seg.text.getD []) ++ "\n\n".data

/-- `TranscriberAggregator._compile_final_report(summary_chunks,
diarization_result, transcription_details)`: headers, the chunk summaries in
order separated by blank lines, then — only when `transcription_details` is
truthy and has a `'segments'` key — the timed transcription section.  Note
the `diarization_result` parameter is received but never read by the
source. -/
def compile_final_report (summary_chunks : List SummaryRow)
    (diarization_result : Option TrDetails)
    (transcription_details : Option TrDetails) : Str :=
  let summaries := summary_chunks.map (·.summary)
  let report := "# Итоговый отчет о разговоре\n\n".data ++
    "## Краткое содержание\n\n".data ++ List.intercalate "\n\n".data summaries
  match diarization_result, transcription_details with
  | _, some td =>
    match td.segments with
    | some segs =>
      report ++ "\n\n## Полная транскрипция\n\n".data ++
        (segs.map segment_line).flatten
    | none => report
  | _, none => report

end TranscriberAggregator

/-! ## Spec-side formulation of the transcription section (§4.4) -/

/-- Modelled from the spec (§4.4): `MM:SS` where the total time is the
truncated (floor, for the nonnegative times of timed segments) number of
seconds, minutes are the unbounded quotient by 60 and seconds the remainder,
both zero-padded to two digits. -/
def specMMSS (t : ℚ) : Str :=
  pad2 (Nat.repr (⌊t⌋.toNat / 60)).data ++ ':' ::
    pad2 (Nat.repr (⌊t⌋.toNat % 60)).data

/-- Modelled from the spec (§4.4): one `[start–end] speaker: text` line, with
the speaker replaced by the generic placeholder label exactly when the
segment carries no label (punctuation taken from the rendered report). -/
def specSegmentLine (seg : Segment) : Str :=
  "[".data ++ specMMSS (seg.start.getD 0) ++ " - ".data ++
    specMMSS (seg.stop.getD 0) ++ "] **".data ++
    (match seg.speaker with
      | some sp => sp
      | none => "Говорящий".data) ++ "**: ".data ++
    pyStrip (seg.text.getD []) ++ "\n\n".data

theorem pyInt_nonneg (q : ℚ) (h : 0 ≤ q) : pyInt q = Int.ofNat ⌊q⌋.toNat := by
  unfold pyInt
  rw [if_pos h]
  exact (Int.toNat_of_nonneg (Int.le_floor.mpr (by exact_mod_cast h))).symm

theorem format_time_eq_spec (q : ℚ) (h : 0 ≤ q) :
    TranscriberAggregator.format_time q = specMMSS q := by
  unfold TranscriberAggregator.format_time specMMSS
  rw [pyInt_nonneg q h]
  rfl

theorem segment_line_eq_spec (seg : Segment)
    (h1 : 0 ≤ seg.start.getD 0) (h2 : 0 ≤ seg.stop.getD 0) :
    TranscriberAggregator.segment_line seg = specSegmentLine seg := by
  unfold TranscriberAggregator.segment_line specSegmentLine
  rw [format_time_eq_spec _ h1, format_time_eq_spec _ h2]
  cases seg.speaker <;> rfl

/-- Claim C5: the compiled report appends the timed transcription section
exactly when a segments list is available; the section lists every segment,
in original order, as a `[MM:SS - MM:SS] **speaker**: text` line with the
times truncated to whole seconds and the speaker replaced by the generic
placeholder exactly when the segment carries no label; and the
`diarization_result` argument never influences the report (so a skipped
diarization leaves exactly the unlabeled-segment placeholder behaviour). -/
theorem C5_report_structure :
    (∀ chunks d1 d2 td,
      TranscriberAggregator.compile_final_report chunks d1 td =
        TranscriberAggregator.compile_final_report chunks d2 td) ∧
    (∀ chunks d segs,
      (∀ seg ∈ segs, 0 ≤ seg.start.getD 0 ∧ 0 ≤ seg.stop.getD 0) →
      TranscriberAggregator.compile_final_report chunks d (some ⟨some segs⟩) =
        TranscriberAggregator.compile_final_report chunks d none ++
          "\n\n## Полная транскрипция\n\n".data ++
          (segs.map specSegmentLine).flatten) ∧
    (∀ chunks d,
      TranscriberAggregator.compile_final_report chunks d (some ⟨none⟩) =
        TranscriberAggregator.compile_final_report chunks d none) := by
  refine ⟨?_, ?_, ?_⟩
  · intro chunks d1 d2 td
    cases d1 <;> cases d2 <;> cases td <;> rfl
  · intro chunks d segs hn
    have hmap : segs.map TranscriberAggregator.segment_line =
        segs.map specSegmentLine :=
      List.map_congr_left fun seg hseg =>
        segment_line_eq_spec seg (hn seg hseg).1 (hn seg hseg).2
    cases d <;>
      simp only [TranscriberAggregator.compile_final_report, hmap]
  · intro chunks d
    cases d <;> rfl

/-- Claim C5, witness: a concrete report with one summary chunk and two timed
segments — one labeled, one not — showing placeholder use and order
preservation. -/
theorem C5_report_structure_witness :
    TranscriberAggregator.compile_final_report [⟨"Итог".data⟩] none
        (some ⟨some [⟨some 5, some 65, some " привет ".data, some "SPEAKER_00".data⟩,
                     ⟨some 65, some 130, none, none⟩]⟩) =
      TranscriberAggregator.compile_final_report [⟨"Итог".data⟩] none none ++
        "\n\n## Полная транскрипция\n\n".data ++
        ([⟨some 5, some 65, some " привет ".data, some "SPEAKER_00".data⟩,
          ⟨some 65, some 130, none, none⟩].map specSegmentLine).flatten :=
  C5_report_structure.2.1 [⟨"Итог".data⟩] none _
    (by intro seg hseg; fin_cases hseg <;> exact ⟨by norm_num, by norm_num⟩)

/-! ## The Executor workflow (src/aggregator/aggregator.py)

`TranscriberAggregator` receives the database service, the task manager and
the two gateways by dependency injection (constructor arguments), so a run is
modelled against an arbitrary behaviour `Env` of those collaborators: one
response per call site, each possibly a raised exception.  The durable
effects on the one task being processed are tracked in a `DBState`. -/

/-- Outcome of one Python call: a value, or a raised exception. -/
inductive Res (α : Type)
  | ok (a : α)
  | exn
  deriving DecidableEq

/-- Outcome of `process_task`: a returned boolean, or an exception escaping
the call boundary. -/
inductive RunResult
  | ret (b : Bool)
  | exn
  deriving DecidableEq

/-- A persisted-artifact write, recorded when a store write succeeds. -/
inductive WriteEv
  | transcription
  | details
  | diar
  | chunk (index : Nat)
  | finalReport
  deriving DecidableEq

/-- The durable state of one task during one run: the stored task row
(status string), the ordered list of status strings successfully written,
and the successful artifact writes. -/
structure DBState where
  status : StoredTask
  statusLog : List String
  writes : List WriteEv
  deriving DecidableEq

/-- Behaviour of the injected collaborators during one run.  Reads and
gateway calls answer with a value or an exception; the `fail*` flags inject
store errors into the corresponding writes. -/
structure Env where
  get_task : Res (Option Unit)
  transcribeRes : Res TrDetails
  cleanup1 : Res Unit
  cleanup2 : Res Unit
  getDetailsDiar : Res (Option TrDetails)
  diarizeRes : Res TrDetails
  get_transcription : Res (Option Str)
  create_summary : Str → Res Str
  get_summary_chunks : Res (List SummaryRow)
  get_diarization_result : Res (Option TrDetails)
  getDetailsFin : Res (Option TrDetails)
  failUpdate : String → Bool
  failSaveTranscription : Bool
  failSaveDetails : Bool
  failSaveDiar : Bool
  failSaveChunk : Nat → Bool
  failSaveReport : Bool

namespace DatabaseService

/-- `DatabaseService.update_task_status` acting on the tracked run state,
with an injected store error when `env.failUpdate` holds for the written
value; on success the write is applied exactly as in
`DatabaseService.update_task_status` and logged when a row was updated. -/
def update_status_op (env : Env) (st : DBState) (status : String) :
    DBState × Res Bool :=
  if env.failUpdate status then (st, .exn)
  else
    let r := update_task_status st.status status
    ({ st with
        status := r.1,
        statusLog := if r.2 then st.statusLog ++ [status] else st.statusLog },
      .ok r.2)

/-- A `save_*` store write: raise when the injected flag is set, otherwise
record the artifact write. -/
def save_op (st : DBState) (ev : WriteEv) (fail : Bool) : DBState × Res Unit :=
  if fail then (st, .exn)
  else ({ st with writes := st.writes ++ [ev] }, .ok ())

end DatabaseService

namespace TranscriberAggregator

/-- `self.task_manager.update_task_status(task_id, status)` as invoked by the
Executor: the enum is converted to its string value, then the store update
runs. -/
def manager_update (env : Env) (st : DBState) (status : TaskStatus) :
    DBState × Res Bool :=
  DatabaseService.update_status_op env st status.value

/-- The `except` body shared by the fatal stages (`_run_transcriber`,
`_run_summarization`): transition to FAILED — an exception raised by that
update simply replaces the original one — and re-raise. -/
def fail_and_raise (env : Env) (st : DBState) : DBState × Res Unit :=
  ((manager_update env st .failed).1, .exn)

/-- `_run_transcriber`: transition to TRANSCRIBING (outside the `try`), call
the transcription gateway, persist the transcript and its details, and
transition to TRANSCRIBED; on any exception inside the `try`, transition to
FAILED and re-raise. -/
def run_transcriber (env : Env) (st : DBState) : DBState × Res Unit :=
  match manager_update env st .transcribing with
  | (st1, .exn) => (st1, .exn)
  | (st1, .ok _) =>
    match env.transcribeRes with
    | .exn => fail_and_raise env st1
    | .ok _ =>
      match DatabaseService.save_op st1 .transcription env.failSaveTranscription with
      | (st2, .exn) => fail_and_raise env st2
      | (st2, .ok _) =>
        match DatabaseService.save_op st2 .details env.failSaveDetails with
        | (st3, .exn) => fail_and_raise env st3
        | (st3, .ok _) =>
          match manager_update env st3 .transcribed with
          | (st4, .exn) => fail_and_raise env st4
          | (st4, .ok _) => (st4, .ok ())

/-- `_run_diarization`: read the transcription details, skip when absent,
call the diarization gateway and persist its result; the whole body is
inside `try/except` — every exception is caught and only logged, and no
status update happens here. -/
def run_diarization (env : Env) (st : DBState) : DBState :=
  match env.getDetailsDiar with
  | .exn => st
  | .ok none => st
  | .ok (some _) =>
    match env.diarizeRes with
    | .exn => st
    | .ok _ => (DatabaseService.save_op st .diar env.failSaveDiar).1

/-- The per-chunk loop of `_run_summarization`: call the summarization
gateway and persist each chunk in index order; the first exception aborts the
loop and propagates. -/
def sum_loop (env : Env) : DBState → Nat → List Str → DBState × Res Unit
  | st, _, [] => (st, .ok ())
  | st, i, c :: cs =>
    match env.create_summary c with
    | .exn => (st, .exn)
    | .ok _ =>
      match DatabaseService.save_op st (.chunk i) (env.failSaveChunk i) with
      | (st1, .exn) => (st1, .exn)
      | (st1, .ok _) => sum_loop env st1 (i + 1) cs

/-- `_run_summarization`: transition to SUMMARIZING (outside the `try`),
split the transcript with the default `max_chunk_size = 5000`, summarize and
persist every chunk, transition to SUMMARIZED; on an exception inside the
`try`, transition to FAILED and re-raise. -/
def run_summarization (env : Env) (st : DBState) (transcript : Str) :
    DBState × Res Unit :=
  match manager_update env st .summarizing with
  | (st1, .exn) => (st1, .exn)
  | (st1, .ok _) =>
    match sum_loop env st1 0 (split_transcript transcript 5000) with
    | (st2, .exn) => fail_and_raise env st2
    | (st2, .ok _) =>
      match manager_update env st2 .summarized with
      | (st3, .exn) => fail_and_raise env st3
      | (st3, .ok _) => (st3, .ok ())

/-- `_run_finalization`: transition to FINALIZING, read the summary chunks —
when none exist, log and return normally without any further action —
otherwise read the diarization result and the timed details, compile the
final report and persist it.  There is no `try` here: exceptions propagate to
the workflow. -/
def run_finalization (env : Env) (st : DBState) : DBState × Res Unit :=
  match manager_update env st .finalizing with
  | (st1, .exn) => (st1, .exn)
  | (st1, .ok _) =>
    match env.get_summary_chunks with
    | .exn => (st1, .exn)
    | .ok [] => (st1, .ok ())
    | .ok (c :: cs) =>
      match env.get_diarization_result with
      | .exn => (st1, .exn)
      | .ok diar =>
        match env.getDetailsFin with
        | .exn => (st1, .exn)
        | .ok details =>
          let _report := compile_final_report (c :: cs) diar details
          DatabaseService.save_op st1 .finalReport env.failSaveReport

/-- The `except Exception` handler of `_process_task_workflow`: transition to
FAILED and return `False`; an exception raised by that update itself escapes
`process_task`. -/
def catch_all (env : Env) (st : DBState) : DBState × RunResult :=
  match manager_update env st .failed with
  | (st1, .exn) => (st1, .exn)
  | (st1, .ok _) => (st1, .ret false)

/-- `_process_task_workflow`: the full stage sequence under one `try`.  The
best-effort audio-file deletion swallows its own errors and touches no
tracked state, so it is a no-op here. -/
def process_task_workflow (env : Env) (st : DBState) : DBState × RunResult :=
  match env.get_task with
  | .exn => catch_all env st
  | .ok none => (st, .ret false)
  | .ok (some _) =>
    match run_transcriber env st with
    | (st1, .exn) => catch_all env st1
    | (st1, .ok _) =>
      match env.cleanup1 with
      | .exn => catch_all env st1
      | .ok _ =>
        let st2 := run_diarization env st1
        match env.cleanup2 with
        | .exn => catch_all env st2
        | .ok _ =>
          match env.get_transcription with
          | .exn => catch_all env st2
          | .ok none =>
            match manager_update env st2 .failed with
            | (st3, .exn) => catch_all env st3
            | (st3, .ok _) => (st3, .ret false)
          | .ok (some transcript) =>
            match run_summarization env st2 transcript with
            | (st3, .exn) => catch_all env st3
            | (st3, .ok _) =>
              match run_finalization env st3 with
              | (st4, .exn) => catch_all env st4
              | (st4, .ok _) =>
                match manager_update env st4 .completed with
                | (st5, .exn) => catch_all env st5
                | (st5, .ok _) => (st5, .ret true)

/-- `process_task(task_id)`: logs and delegates to the workflow. -/
def process_task (env : Env) (st : DBState) : DBState × RunResult :=
  process_task_workflow env st

/-- Modelled from the spec (§7, §8): the identical workflow with the
diarization stage omitted entirely — "the workflow proceeds as if diarization
had been skipped" — used as the reference side of refinement claim C4. -/
def process_task_workflow_skip_diar (env : Env) (st : DBState) :
    DBState × RunResult :=
  match env.get_task with
  | .exn => catch_all env st
  | .ok none => (st, .ret false)
  | .ok (some _) =>
    match run_transcriber env st with
    | (st1, .exn) => catch_all env st1
    | (st1, .ok _) =>
      match env.cleanup1 with
      | .exn => catch_all env st1
      | .ok _ =>
        match env.cleanup2 with
        | .exn => catch_all env st1
        | .ok _ =>
          match env.get_transcription with
          | .exn => catch_all env st1
          | .ok none =>
            match manager_update env st1 .failed with
            | (st3, .exn) => catch_all env st3
            | (st3, .ok _) => (st3, .ret false)
          | .ok (some transcript) =>
            match run_summarization env st1 transcript with
            | (st3, .exn) => catch_all env st3
            | (st3, .ok _) =>
              match run_finalization env st3 with
              | (st4, .exn) => catch_all env st4
              | (st4, .ok _) =>
                match manager_update env st4 .completed with
                | (st5, .exn) => catch_all env st5
                | (st5, .ok _) => (st5, .ret true)

end TranscriberAggregator

/-- A fully successful collaborator behaviour: every read answers, every
gateway succeeds, no store write fails. -/
def envOk : Env where
  get_task := .ok (some ())
  transcribeRes := .ok ⟨none⟩
  cleanup1 := .ok ()
  cleanup2 := .ok ()
  getDetailsDiar := .ok (some ⟨none⟩)
  diarizeRes := .ok ⟨none⟩
  get_transcription := .ok (some "Привет".data)
  create_summary := fun _ => .ok "sum".data
  get_summary_chunks := .ok [⟨"sum".data⟩]
  get_diarization_result := .ok none
  getDetailsFin := .ok none
  failUpdate := fun _ => false
  failSaveTranscription := false
  failSaveDetails := false
  failSaveDiar := false
  failSaveChunk := fun _ => false
  failSaveReport := false

/-- The initial state of a freshly created pending task. -/
def st0 : DBState := ⟨some TaskStatus.pending.value, [], []⟩

/-! ## Frame lemmas on the store operations -/

theorem update_status_op_isSome (env : Env) (st : DBState) (s : String) :
    (DatabaseService.update_status_op env st s).1.status.isSome = st.status.isSome := by
  unfold DatabaseService.update_status_op DatabaseService.update_task_status
  by_cases hf : env.failUpdate s <;> cases h : st.status <;> simp [hf, h]

theorem update_status_op_writes (env : Env) (st : DBState) (s : String) :
    (DatabaseService.update_status_op env st s).1.writes = st.writes := by
  unfold DatabaseService.update_status_op DatabaseService.update_task_status
  by_cases hf : env.failUpdate s <;> cases h : st.status <;> simp [hf, h]

theorem manager_update_isSome (env : Env) (st : DBState) (s : TaskStatus) :
    (TranscriberAggregator.manager_update env st s).1.status.isSome = st.status.isSome :=
  update_status_op_isSome env st s.value

theorem manager_update_writes (env : Env) (st : DBState) (s : TaskStatus) :
    (TranscriberAggregator.manager_update env st s).1.writes = st.writes :=
  update_status_op_writes env st s.value

theorem manager_update_ok (env : Env) (st : DBState) (s : TaskStatus)
    (st' : DBState) (b : Bool)
    (h : TranscriberAggregator.manager_update env st s = (st', .ok b)) :
    st'.status = if st.status.isSome then some s.value else st.status := by
  unfold TranscriberAggregator.manager_update DatabaseService.update_status_op
    DatabaseService.update_task_status at h
  by_cases hf : env.failUpdate s.value <;> cases hst : st.status <;>
    simp [hf, hst] at h <;> simp [← h.1, hst]

theorem manager_update_nofail (env : Env) (st : DBState) (s : TaskStatus)
    (h : env.failUpdate s.value = false) :
    TranscriberAggregator.manager_update env st s =
      ({ st with
          status := if st.status.isSome then some s.value else st.status,
          statusLog := if st.status.isSome then st.statusLog ++ [s.value]
            else st.statusLog },
        .ok st.status.isSome) := by
  unfold TranscriberAggregator.manager_update DatabaseService.update_status_op
    DatabaseService.update_task_status
  cases hst : st.status <;> simp [h, hst]

theorem save_op_status (st : DBState) (ev : WriteEv) (f : Bool) :
    (DatabaseService.save_op st ev f).1.status = st.status := by
  unfold DatabaseService.save_op
  cases f <;> simp


theorem save_op_notMem (st : DBState) (ev : WriteEv) (f : Bool)
    (h : WriteEv.finalReport ∉ st.writes) (hev : ev ≠ WriteEv.finalReport) :
    WriteEv.finalReport ∉ (DatabaseService.save_op st ev f).1.writes := by
  unfold DatabaseService.save_op
  cases f with
  | false => simp [h, Ne.symm hev]
  | true => simpa using h

theorem fail_and_raise_isSome (env : Env) (st : DBState) :
    (TranscriberAggregator.fail_and_raise env st).1.status.isSome = st.status.isSome :=
  manager_update_isSome env st .failed

theorem fail_and_raise_writes (env : Env) (st : DBState) :
    (TranscriberAggregator.fail_and_raise env st).1.writes = st.writes :=
  manager_update_writes env st .failed

/-! ## Frame lemmas on the workflow stages -/

theorem run_transcriber_isSome (env : Env) (st : DBState) :
    (TranscriberAggregator.run_transcriber env st).1.status.isSome = st.status.isSome := by
  unfold TranscriberAggregator.run_transcriber
  rcases h1 : TranscriberAggregator.manager_update env st .transcribing with ⟨st1, r1⟩
  have e1 : st1.status.isSome = st.status.isSome := by
    have e := manager_update_isSome env st .transcribing
    rw [h1] at e
    simpa using e
  cases r1 with
  | exn => simpa using e1
  | ok b1 =>
    dsimp only
    cases env.transcribeRes with
    | exn => simpa [fail_and_raise_isSome] using e1
    | ok _ =>
      dsimp only
      rcases h2 : DatabaseService.save_op st1 .transcription env.failSaveTranscription
        with ⟨st2, r2⟩
      have e2 : st2.status.isSome = st1.status.isSome := by
        have e := save_op_status st1 .transcription env.failSaveTranscription
        rw [h2] at e
        have e' : st2.status = st1.status := by simpa using e
        rw [e']
      cases r2 with
      | exn => simp [fail_and_raise_isSome, e2, e1]
      | ok _ =>
        dsimp only
        rcases h3 : DatabaseService.save_op st2 .details env.failSaveDetails with ⟨st3, r3⟩
        have e3 : st3.status.isSome = st2.status.isSome := by
          have e := save_op_status st2 .details env.failSaveDetails
          rw [h3] at e
          have e' : st3.status = st2.status := by simpa using e
          rw [e']
        cases r3 with
        | exn => simp [fail_and_raise_isSome, e3, e2, e1]
        | ok _ =>
          dsimp only
          rcases h4 : TranscriberAggregator.manager_update env st3 .transcribed with ⟨st4, r4⟩
          have e4 : st4.status.isSome = st3.status.isSome := by
            have e := manager_update_isSome env st3 .transcribed
            rw [h4] at e
            simpa using e
          cases r4 with
          | exn => simp [fail_and_raise_isSome, e4, e3, e2, e1]
          | ok _ => simp [e4, e3, e2, e1]

theorem run_transcriber_notMem (env : Env) (st : DBState)
    (h : WriteEv.finalReport ∉ st.writes) :
    WriteEv.finalReport ∉ (TranscriberAggregator.run_transcriber env st).1.writes := by
  unfold TranscriberAggregator.run_transcriber
  rcases h1 : TranscriberAggregator.manager_update env st .transcribing with ⟨st1, r1⟩
  have e1 : WriteEv.finalReport ∉ st1.writes := by
    have e := manager_update_writes env st .transcribing
    rw [h1] at e
    simp only at e
    rw [e]
    exact h
  cases r1 with
  | exn => simpa using e1
  | ok b1 =>
    dsimp only
    cases env.transcribeRes with
    | exn => simpa [fail_and_raise_writes] using e1
    | ok _ =>
      dsimp only
      rcases h2 : DatabaseService.save_op st1 .transcription env.failSaveTranscription
        with ⟨st2, r2⟩
      have e2 : WriteEv.finalReport ∉ st2.writes := by
        have e := save_op_notMem st1 .transcription env.failSaveTranscription e1 (by simp)
        rw [h2] at e
        simpa using e
      cases r2 with
      | exn => simpa [fail_and_raise_writes] using e2
      | ok _ =>
        dsimp only
        rcases h3 : DatabaseService.save_op st2 .details env.failSaveDetails with ⟨st3, r3⟩
        have e3 : WriteEv.finalReport ∉ st3.writes := by
          have e := save_op_notMem st2 .details env.failSaveDetails e2 (by simp)
          rw [h3] at e
          simpa using e
        cases r3 with
        | exn => simpa [fail_and_raise_writes] using e3
        | ok _ =>
          dsimp only
          rcases h4 : TranscriberAggregator.manager_update env st3 .transcribed with ⟨st4, r4⟩
          have e4 : WriteEv.finalReport ∉ st4.writes := by
            have e := manager_update_writes env st3 .transcribed
            rw [h4] at e
            simp only at e
            rw [e]
            exact e3
          cases r4 with
          | exn => simpa [fail_and_raise_writes] using e4
          | ok _ => simpa using e4

theorem run_diarization_status (env : Env) (st : DBState) :
    (TranscriberAggregator.run_diarization env st).status = st.status := by
  unfold TranscriberAggregator.run_diarization
  cases env.getDetailsDiar with
  | exn => rfl
  | ok o =>
    cases o with
    | none => rfl
    | some _ =>
      cases env.diarizeRes with
      | exn => rfl
      | ok _ => exact save_op_status ..

theorem run_diarization_notMem (env : Env) (st : DBState)
    (h : WriteEv.finalReport ∉ st.writes) :
    WriteEv.finalReport ∉ (TranscriberAggregator.run_diarization env st).writes := by
  unfold TranscriberAggregator.run_diarization
  cases env.getDetailsDiar with
  | exn => exact h
  | ok o =>
    cases o with
    | none => exact h
    | some _ =>
      cases env.diarizeRes with
      | exn => exact h
      | ok _ => exact save_op_notMem st .diar env.failSaveDiar h (by simp)

theorem sum_loop_isSome (env : Env) (cs : List Str) :
    ∀ (st : DBState) (i : Nat),
      (TranscriberAggregator.sum_loop env st i cs).1.status.isSome = st.status.isSome := by
  induction cs with
  | nil => intro st i; rfl
  | cons c rest ih =>
    intro st i
    unfold TranscriberAggregator.sum_loop
    cases env.create_summary c with
    | exn => rfl
    | ok _ =>
      dsimp only
      rcases h1 : DatabaseService.save_op st (.chunk i) (env.failSaveChunk i) with ⟨st1, r1⟩
      have e1 : st1.status.isSome = st.status.isSome := by
        have e := save_op_status st (.chunk i) (env.failSaveChunk i)
        rw [h1] at e
        have e' : st1.status = st.status := by simpa using e
        rw [e']
      cases r1 with
      | exn => simpa using e1
      | ok _ => simp [ih st1 (i + 1), e1]

theorem sum_loop_notMem (env : Env) (cs : List Str) :
    ∀ (st : DBState) (i : Nat), WriteEv.finalReport ∉ st.writes →
      WriteEv.finalReport ∉ (TranscriberAggregator.sum_loop env st i cs).1.writes := by
  induction cs with
  | nil => intro st i h; exact h
  | cons c rest ih =>
    intro st i h
    unfold TranscriberAggregator.sum_loop
    cases env.create_summary c with
    | exn => exact h
    | ok _ =>
      dsimp only
      rcases h1 : DatabaseService.save_op st (.chunk i) (env.failSaveChunk i) with ⟨st1, r1⟩
      have e1 : WriteEv.finalReport ∉ st1.writes := by
        have e := save_op_notMem st (.chunk i) (env.failSaveChunk i) h (by simp)
        rw [h1] at e
        simpa using e
      cases r1 with
      | exn => simpa using e1
      | ok _ => simpa using ih st1 (i + 1) e1

theorem run_summarization_isSome (env : Env) (st : DBState) (t : Str) :
    (TranscriberAggregator.run_summarization env st t).1.status.isSome = st.status.isSome := by
  unfold TranscriberAggregator.run_summarization
  rcases h1 : TranscriberAggregator.manager_update env st .summarizing with ⟨st1, r1⟩
  have e1 : st1.status.isSome = st.status.isSome := by
    have e := manager_update_isSome env st .summarizing
    rw [h1] at e
    simpa using e
  cases r1 with
  | exn => simpa using e1
  | ok _ =>
    dsimp only
    rcases h2 : TranscriberAggregator.sum_loop env st1 0
      (TranscriberAggregator.split_transcript t 5000) with ⟨st2, r2⟩
    have e2 : st2.status.isSome = st1.status.isSome := by
      have e := sum_loop_isSome env (TranscriberAggregator.split_transcript t 5000) st1 0
      rw [h2] at e
      simp [e]
    cases r2 with
    | exn => simp [fail_and_raise_isSome, e2, e1]
    | ok _ =>
      dsimp only
      rcases h3 : TranscriberAggregator.manager_update env st2 .summarized with ⟨st3, r3⟩
      have e3 : st3.status.isSome = st2.status.isSome := by
        have e := manager_update_isSome env st2 .summarized
        rw [h3] at e
        simpa using e
      cases r3 with
      | exn => simp [fail_and_raise_isSome, e3, e2, e1]
      | ok _ => simp [e3, e2, e1]

theorem run_summarization_notMem (env : Env) (st : DBState) (t : Str)
    (h : WriteEv.finalReport ∉ st.writes) :
    WriteEv.finalReport ∉ (TranscriberAggregator.run_summarization env st t).1.writes := by
  unfold TranscriberAggregator.run_summarization
  rcases h1 : TranscriberAggregator.manager_update env st .summarizing with ⟨st1, r1⟩
  have e1 : WriteEv.finalReport ∉ st1.writes := by
    have e := manager_update_writes env st .summarizing
    rw [h1] at e
    simp only at e
    rw [e]
    exact h
  cases r1 with
  | exn => simpa using e1
  | ok _ =>
    dsimp only
    rcases h2 : TranscriberAggregator.sum_loop env st1 0
      (TranscriberAggregator.split_transcript t 5000) with ⟨st2, r2⟩
    have e2 : WriteEv.finalReport ∉ st2.writes := by
      have e := sum_loop_notMem env (TranscriberAggregator.split_transcript t 5000) st1 0 e1
      rw [h2] at e
      simpa using e
    cases r2 with
    | exn => simpa [fail_and_raise_writes] using e2
    | ok _ =>
      dsimp only
      rcases h3 : TranscriberAggregator.manager_update env st2 .summarized with ⟨st3, r3⟩
      have e3 : WriteEv.finalReport ∉ st3.writes := by
        have e := manager_update_writes env st2 .summarized
        rw [h3] at e
        simp only at e
        rw [e]
        exact e2
      cases r3 with
      | exn => simpa [fail_and_raise_writes] using e3
      | ok _ => simpa using e3

theorem run_finalization_isSome (env : Env) (st : DBState) :
    (TranscriberAggregator.run_finalization env st).1.status.isSome = st.status.isSome := by
  unfold TranscriberAggregator.run_finalization
  rcases h1 : TranscriberAggregator.manager_update env st .finalizing with ⟨st1, r1⟩
  have e1 : st1.status.isSome = st.status.isSome := by
    have e := manager_update_isSome env st .finalizing
    rw [h1] at e
    simpa using e
  cases r1 with
  | exn => simpa using e1
  | ok _ =>
    try dsimp only
    cases env.get_summary_chunks with
    | exn => simpa using e1
    | ok chunks =>
      try dsimp only
      cases chunks with
      | nil => simpa using e1
      | cons c cs =>
        try dsimp only
        cases env.get_diarization_result with
        | exn => simpa using e1
        | ok diar =>
          try dsimp only
          cases env.getDetailsFin with
          | exn => simpa using e1
          | ok details =>
            have e := save_op_status st1 .finalReport env.failSaveReport
            simp [e, e1]

theorem run_finalization_no_chunks_writes (env : Env) (st : DBState)
    (h : env.get_summary_chunks = .ok []) :
    (TranscriberAggregator.run_finalization env st).1.writes = st.writes := by
  unfold TranscriberAggregator.run_finalization
  rcases h1 : TranscriberAggregator.manager_update env st .finalizing with ⟨st1, r1⟩
  have e1 : st1.writes = st.writes := by
    have e := manager_update_writes env st .finalizing
    rw [h1] at e
    simpa using e
  cases r1 with
  | exn => simpa using e1
  | ok _ => simp [h, e1]

theorem catch_all_ret (env : Env) (st : DBState)
    (hupd : env.failUpdate TaskStatus.failed.value = false) :
    (TranscriberAggregator.catch_all env st).2 = RunResult.ret false := by
  unfold TranscriberAggregator.catch_all
  rw [manager_update_nofail env st .failed hupd]

theorem catch_all_status (env : Env) (st : DBState)
    (hupd : env.failUpdate TaskStatus.failed.value = false)
    (hs : st.status.isSome) :
    (TranscriberAggregator.catch_all env st).1.status = some TaskStatus.failed.value := by
  unfold TranscriberAggregator.catch_all
  rw [manager_update_nofail env st .failed hupd]
  simp [hs]

theorem catch_all_writes (env : Env) (st : DBState) :
    (TranscriberAggregator.catch_all env st).1.writes = st.writes := by
  unfold TranscriberAggregator.catch_all
  rcases h1 : TranscriberAggregator.manager_update env st .failed with ⟨st1, r1⟩
  have e1 : st1.writes = st.writes := by
    have e := manager_update_writes env st .failed
    rw [h1] at e
    simpa using e
  cases r1 <;> simpa using e1

theorem catch_all_ne_true (env : Env) (s : DBState) :
    (TranscriberAggregator.catch_all env s).2 ≠ RunResult.ret true := by
  unfold TranscriberAggregator.catch_all
  rcases h1 : TranscriberAggregator.manager_update env s .failed with ⟨s1, r1⟩
  cases r1 <;> simp

/-- Every run of `process_task` ends in one of four leaves: the `except`
handler, the task-not-found early return, the missing-transcript failure
return, or the COMPLETED success return; intermediate states preserve the
presence of the task row and (when the store lists no summary chunks) never
persist a final report. -/
theorem process_task_elim (env : Env) (st : DBState)
    (motive : DBState × RunResult → Prop)
    (hcatch : ∀ s : DBState, s.status.isSome = st.status.isSome →
      (WriteEv.finalReport ∉ st.writes → env.get_summary_chunks = .ok [] →
        WriteEv.finalReport ∉ s.writes) →
      motive (TranscriberAggregator.catch_all env s))
    (hnotfound : env.get_task = .ok none → motive (st, .ret false))
    (hfailedleaf : ∀ (s s' : DBState) (b : Bool),
      s.status.isSome = st.status.isSome →
      (WriteEv.finalReport ∉ st.writes → env.get_summary_chunks = .ok [] →
        WriteEv.finalReport ∉ s.writes) →
      TranscriberAggregator.manager_update env s .failed = (s', .ok b) →
      motive (s', .ret false))
    (hdoneleaf : ∀ (s s' : DBState) (b : Bool),
      s.status.isSome = st.status.isSome →
      (WriteEv.finalReport ∉ st.writes → env.get_summary_chunks = .ok [] →
        WriteEv.finalReport ∉ s.writes) →
      TranscriberAggregator.manager_update env s .completed = (s', .ok b) →
      motive (s', .ret true)) :
    motive (TranscriberAggregator.process_task env st) := by
  unfold TranscriberAggregator.process_task TranscriberAggregator.process_task_workflow
  cases hg : env.get_task with
  | exn => exact hcatch st rfl (fun h _ => h)
  | ok o =>
    cases o with
    | none => exact hnotfound hg
    | some u =>
      dsimp only
      rcases h1 : TranscriberAggregator.run_transcriber env st with ⟨st1, r1⟩
      have eS1 : st1.status.isSome = st.status.isSome := by
        have e := run_transcriber_isSome env st
        rw [h1] at e
        simpa using e
      have eC1 : WriteEv.finalReport ∉ st.writes → env.get_summary_chunks = .ok [] →
          WriteEv.finalReport ∉ st1.writes := by
        intro h _
        have e := run_transcriber_notMem env st h
        rw [h1] at e
        simpa using e
      cases r1 with
      | exn => exact hcatch st1 eS1 eC1
      | ok _ =>
        dsimp only
        cases env.cleanup1 with
        | exn => exact hcatch st1 eS1 eC1
        | ok _ =>
          dsimp only
          have eS2 : (TranscriberAggregator.run_diarization env st1).status.isSome =
              st.status.isSome := by
            rw [run_diarization_status]
            exact eS1
          have eC2 : WriteEv.finalReport ∉ st.writes → env.get_summary_chunks = .ok [] →
              WriteEv.finalReport ∉ (TranscriberAggregator.run_diarization env st1).writes :=
            fun h hc => run_diarization_notMem env st1 (eC1 h hc)
          cases env.cleanup2 with
          | exn => exact hcatch _ eS2 eC2
          | ok _ =>
            dsimp only
            cases ht : env.get_transcription with
            | exn => exact hcatch _ eS2 eC2
            | ok ot =>
              cases ot with
              | none =>
                dsimp only
                rcases h2 : TranscriberAggregator.manager_update env
                  (TranscriberAggregator.run_diarization env st1) .failed with ⟨st3, r2⟩
                have eS3 : st3.status.isSome = st.status.isSome := by
                  have e := manager_update_isSome env
                    (TranscriberAggregator.run_diarization env st1) .failed
                  rw [h2] at e
                  simpa using e.trans eS2
                have eC3 : WriteEv.finalReport ∉ st.writes →
                    env.get_summary_chunks = .ok [] →
                    WriteEv.finalReport ∉ st3.writes := by
                  intro h hc
                  have e := manager_update_writes env
                    (TranscriberAggregator.run_diarization env st1) .failed
                  rw [h2] at e
                  simp only at e
                  rw [e]
                  exact eC2 h hc
                cases r2 with
                | exn => exact hcatch st3 eS3 eC3
                | ok b => exact hfailedleaf _ st3 b eS2 eC2 h2
              | some t =>
                dsimp only
                rcases h3 : TranscriberAggregator.run_summarization env
                  (TranscriberAggregator.run_diarization env st1) t with ⟨st3, r3⟩
                have eS3 : st3.status.isSome = st.status.isSome := by
                  have e := run_summarization_isSome env
                    (TranscriberAggregator.run_diarization env st1) t
                  rw [h3] at e
                  simpa using e.trans eS2
                have eC3 : WriteEv.finalReport ∉ st.writes →
                    env.get_summary_chunks = .ok [] →
                    WriteEv.finalReport ∉ st3.writes := by
                  intro h hc
                  have e := run_summarization_notMem env
                    (TranscriberAggregator.run_diarization env st1) t (eC2 h hc)
                  rw [h3] at e
                  simpa using e
                cases r3 with
                | exn => exact hcatch st3 eS3 eC3
                | ok _ =>
                  dsimp only
                  rcases h4 : TranscriberAggregator.run_finalization env st3 with ⟨st4, r4⟩
                  have eS4 : st4.status.isSome = st.status.isSome := by
                    have e := run_finalization_isSome env st3
                    rw [h4] at e
                    simpa using e.trans eS3
                  have eC4 : WriteEv.finalReport ∉ st.writes →
                      env.get_summary_chunks = .ok [] →
                      WriteEv.finalReport ∉ st4.writes := by
                    intro h hc
                    have e := run_finalization_no_chunks_writes env st3 hc
                    rw [h4] at e
                    simp only at e
                    rw [e]
                    exact eC3 h hc
                  cases r4 with
                  | exn => exact hcatch st4 eS4 eC4
                  | ok _ =>
                    dsimp only
                    rcases h5 : TranscriberAggregator.manager_update env st4 .completed
                      with ⟨st5, r5⟩
                    have eS5 : st5.status.isSome = st.status.isSome := by
                      have e := manager_update_isSome env st4 .completed
                      rw [h5] at e
                      simpa using e.trans eS4
                    have eC5 : WriteEv.finalReport ∉ st.writes →
                        env.get_summary_chunks = .ok [] →
                        WriteEv.finalReport ∉ st5.writes := by
                      intro h hc
                      have e := manager_update_writes env st4 .completed
                      rw [h5] at e
                      simp only at e
                      rw [e]
                      exact eC4 h hc
                    cases r5 with
                    | exn => exact hcatch st5 eS5 eC5
                    | ok b => exact hdoneleaf st4 st5 b eS4 eC4 h5

/-! ## Claim theorems about the Executor (C1, C3, C4) -/

/-- A store behaviour whose chunk listing answers with an empty sequence at
finalization (everything else succeeds). -/
def envNoChunks : Env := { envOk with get_summary_chunks := .ok [] }

/-- Claim C1, counterexample: a run that reaches the Finalize stage (the
FINALIZING status is written) and finds zero persisted summary chunks does
not stay in FINALIZING: `_run_finalization` returns normally after logging,
and `_process_task_workflow` then transitions the task to COMPLETED and
returns `True`. -/
theorem C1_finalize_no_chunks_cex :
    envNoChunks.get_summary_chunks = Res.ok [] ∧
    TaskStatus.finalizing.value ∈
      (TranscriberAggregator.process_task envNoChunks st0).1.statusLog ∧
    (TranscriberAggregator.process_task envNoChunks st0).1.status =
      some TaskStatus.completed.value ∧
    (TranscriberAggregator.process_task envNoChunks st0).2 = RunResult.ret true := by
  decide

/-- Claim C1 (amended): when finalization finds zero persisted summary
chunks, the Executor logs and returns without persisting any final report —
but the workflow then still transitions the task to COMPLETED: whenever the
run returns `true`, the stored status ends as COMPLETED, not FINALIZING. -/
theorem C1_finalize_no_chunks (env : Env) (st : DBState)
    (hchunks : env.get_summary_chunks = .ok [])
    (hw : WriteEv.finalReport ∉ st.writes)
    (hsome : st.status.isSome = true) :
    WriteEv.finalReport ∉ (TranscriberAggregator.process_task env st).1.writes ∧
    ((TranscriberAggregator.process_task env st).2 = RunResult.ret true →
      (TranscriberAggregator.process_task env st).1.status =
        some TaskStatus.completed.value) := by
  constructor
  · refine process_task_elim env st (fun p => WriteEv.finalReport ∉ p.1.writes) ?_ ?_ ?_ ?_
    · intro s _ hC
      rw [catch_all_writes]
      exact hC hw hchunks
    · intro _
      exact hw
    · intro s s' b _ hC heq
      have e := manager_update_writes env s .failed
      rw [heq] at e
      simp only at e
      show WriteEv.finalReport ∉ s'.writes
      rw [e]
      exact hC hw hchunks
    · intro s s' b _ hC heq
      have e := manager_update_writes env s .completed
      rw [heq] at e
      simp only at e
      show WriteEv.finalReport ∉ s'.writes
      rw [e]
      exact hC hw hchunks
  · intro hret
    refine (process_task_elim env st
      (fun p => p.2 = RunResult.ret true →
        p.1.status = some TaskStatus.completed.value) ?_ ?_ ?_ ?_) hret
    · intro s _ _ hres
      exact absurd hres (catch_all_ne_true env s)
    · intro _ hres
      simp at hres
    · intro s s' b _ _ _ hres
      simp at hres
    · intro s s' b hS _ heq _
      have e := manager_update_ok env s .completed s' b heq
      have hs : s.status.isSome = true := hS.trans hsome
      show s'.status = some TaskStatus.completed.value
      rw [e, hs]
      simp

/-- Claim C1, witness for the amended theorem at the concrete
zero-chunk run. -/
theorem C1_finalize_no_chunks_witness :
    WriteEv.finalReport ∉ (TranscriberAggregator.process_task envNoChunks st0).1.writes ∧
    ((TranscriberAggregator.process_task envNoChunks st0).2 = RunResult.ret true →
      (TranscriberAggregator.process_task envNoChunks st0).1.status =
        some TaskStatus.completed.value) :=
  C1_finalize_no_chunks envNoChunks st0 rfl (by decide) rfl

/-- A collaborator behaviour where the store itself is broken: the task read
raises and every status update raises. -/
def envStoreDown : Env := { envOk with get_task := .exn, failUpdate := fun _ => true }

/-- Claim C3, counterexample: with a store whose reads and status updates
raise, the exception raised while writing the FAILED status inside the
`except` handler escapes `process_task` — the entry point does not return a
boolean for every behaviour of the store. -/
theorem C3_boundary_cex :
    ¬ ∃ b, (TranscriberAggregator.process_task envStoreDown st0).2 = RunResult.ret b := by
  decide

/-- Claim C3 (amended): provided the store's status update never raises,
`process_task` always returns a boolean (no exception passes its boundary),
and whenever the task row exists and a fatal internal stage error makes the
run return `false`, the stored status ends as FAILED. -/
theorem C3_boundary (env : Env) (st : DBState)
    (hupd : ∀ s, env.failUpdate s = false) :
    (∃ b, (TranscriberAggregator.process_task env st).2 = RunResult.ret b) ∧
    (env.get_task = .ok (some ()) → st.status.isSome = true →
      (TranscriberAggregator.process_task env st).2 = RunResult.ret false →
      (TranscriberAggregator.process_task env st).1.status =
        some TaskStatus.failed.value) := by
  constructor
  · refine process_task_elim env st (fun p => ∃ b, p.2 = RunResult.ret b) ?_ ?_ ?_ ?_
    · intro s _ _
      exact ⟨false, catch_all_ret env s (hupd _)⟩
    · intro _
      exact ⟨false, rfl⟩
    · intro s s' b _ _ _
      exact ⟨false, rfl⟩
    · intro s s' b _ _ _
      exact ⟨true, rfl⟩
  · intro hget hsome hres
    refine (process_task_elim env st
      (fun p => p.2 = RunResult.ret false →
        p.1.status = some TaskStatus.failed.value) ?_ ?_ ?_ ?_) hres
    · intro s hS _ _
      exact catch_all_status env s (hupd _) (hS.trans hsome)
    · intro hgn
      rw [hget] at hgn
      simp at hgn
    · intro s s' b hS _ heq _
      have e := manager_update_ok env s .failed s' b heq
      have hs : s.status.isSome = true := hS.trans hsome
      show s'.status = some TaskStatus.failed.value
      rw [e, hs]
      simp
    · intro s s' b _ _ _ hres2
      simp at hres2

/-- A behaviour where the transcription gateway raises but the store is
healthy (no update failure). -/
def envTransFail : Env := { envOk with transcribeRes := .exn }

/-- Claim C3, witness for the amended theorem: with a failing transcription
gateway and a healthy store, the run returns a boolean, and a `false` result
comes with a FAILED stored status. -/
theorem C3_boundary_witness :
    (∃ b, (TranscriberAggregator.process_task envTransFail st0).2 = RunResult.ret b) ∧
    (envTransFail.get_task = .ok (some ()) → st0.status.isSome = true →
      (TranscriberAggregator.process_task envTransFail st0).2 = RunResult.ret false →
      (TranscriberAggregator.process_task envTransFail st0).1.status =
        some TaskStatus.failed.value) :=
  C3_boundary envTransFail st0 (fun _ => rfl)

theorem run_diarization_exn_id (env : Env) (h : env.diarizeRes = .exn) :
    ∀ st : DBState, TranscriberAggregator.run_diarization env st = st := by
  intro st
  unfold TranscriberAggregator.run_diarization
  cases hd : env.getDetailsDiar with
  | exn => rfl
  | ok o =>
    cases o with
    | none => rfl
    | some _ =>
      dsimp only
      rw [h]

/-- Claim C4: running the pipeline with a diarization gateway that raises
produces, for every behaviour of the remaining stages and the store, exactly
the same run outcome — the same terminal stored state and the same
`process_task` result — as running the workflow with the diarization stage
skipped entirely. -/
theorem C4_diar_failure_equiv (env : Env) (st : DBState)
    (h : env.diarizeRes = .exn) :
    TranscriberAggregator.process_task env st =
      TranscriberAggregator.process_task_workflow_skip_diar env st := by
  unfold TranscriberAggregator.process_task TranscriberAggregator.process_task_workflow
    TranscriberAggregator.process_task_workflow_skip_diar
  simp only [run_diarization_exn_id env h]

/-- A behaviour where only the diarization gateway raises. -/
def envDiarFail : Env := { envOk with diarizeRes := .exn }

/-- Claim C4, witness: with failing diarization and successful summarization
the two workflows agree, and the task still reaches COMPLETED with a `true`
result. -/
theorem C4_diar_failure_equiv_witness :
    TranscriberAggregator.process_task envDiarFail st0 =
      TranscriberAggregator.process_task_workflow_skip_diar envDiarFail st0 ∧
    (TranscriberAggregator.process_task envDiarFail st0).2 = RunResult.ret true ∧
    (TranscriberAggregator.process_task envDiarFail st0).1.status =
      some TaskStatus.completed.value :=
  ⟨C4_diar_failure_equiv envDiarFail st0 rfl, by decide, by decide⟩

/-! ## `TranscriberService.diarize` (src/transcriber_service/transcriber_service.py) -/

namespace TranscriberService

/-- The fallible body of `TranscriberService.diarize`: construct the
`DiarizationPipeline`, load the audio, run the diarization model, then assign
word speakers onto the transcription result — each step may raise. -/
def diarize_body (loadPipeline loadAudio : Res Unit) (runModel : Res TrDetails)
    (assign : TrDetails → Res TrDetails) : Res TrDetails :=
  match loadPipeline with
  | .exn => .exn
  | .ok _ =>
    match loadAudio with
    | .exn => .exn
    | .ok _ =>
      match runModel with
      | .exn => .exn
      | .ok segs => assign segs

/-- `TranscriberService.diarize(audio_path, result, hf_token)`: the body runs
inside `try/except Exception`; any exception is caught, logged, and the
transcription `result` the method was given is returned unchanged.  The
return type is total — no exception leaves the method. -/
def diarize (loadPipeline loadAudio : Res Unit) (runModel : Res TrDetails)
    (assign : TrDetails → Res TrDetails) (result : TrDetails) : TrDetails :=
  match diarize_body loadPipeline loadAudio runModel assign with
  | .ok r => r
  | .exn => result

end TranscriberService

/-- Claim C10: `TranscriberService.diarize` never raises to its caller (its
embedding is a total function), and whenever the internal diarization
pipeline fails with any exception — at pipeline construction, audio loading,
model inference or speaker assignment — it returns the transcription result
it was given, unchanged. -/
theorem C10_diarize_total (lp la : Res Unit) (rm : Res TrDetails)
    (asgn : TrDetails → Res TrDetails) (result : TrDetails)
    (h : TranscriberService.diarize_body lp la rm asgn = .exn) :
    TranscriberService.diarize lp la rm asgn result = result := by
  unfold TranscriberService.diarize
  rw [h]

/-- Claim C10, witness: a failing model-inference step leaves the given
transcription result unchanged. -/
theorem C10_diarize_total_witness :
    TranscriberService.diarize (.ok ()) (.ok ()) .exn (fun r => .ok r) ⟨none⟩ = ⟨none⟩ :=
  C10_diarize_total (.ok ()) (.ok ()) .exn (fun r => .ok r) ⟨none⟩ rfl
